import Mathlib

/-!
Verification of the technical-analysis engine in `src/backend/technical.py`
of the TRADING repository.

The engine is embedded shallowly: bars are records of exact rationals, the
pandas rolling/ewm computations are reproduced as explicit window functions
over lists, NaN propagation is modelled with `Option`, and the insufficient
data error dictionary of `calculate_indicators` is modelled with `Except`.
Decimal literals of the source (0.1, 1.02, ...) are modelled as the exact
rationals they denote, and Python `round(x, 2)` as exact rounding of a
rational to two decimal places with ties to even (the rounding mode of
Python `round`).  The floating-point square root used by the Bollinger-band
standard deviation has no exact rational counterpart; it is modelled by
`sqrtQ`, which agrees with the source on perfect squares (in particular on
0); no theorem below depends on the value of `sqrtQ` off perfect squares.
-/

set_option maxHeartbeats 1000000
set_option maxRecDepth 100000

attribute [local semireducible] Rat.add Rat.sub Rat.mul Rat.inv Rat.ofScientific

/-- Round half to even on rationals (the tie-breaking rule of Python round). -/
def rhEven (x : ℚ) : ℤ :=
  if x - x.floor < 1 / 2 then x.floor
  else if 1 / 2 < x - x.floor then x.floor + 1
  else if x.floor % 2 = 0 then x.floor else x.floor + 1

/-- Python round(x, 2): round to two decimal places, ties to even. -/
def round2 (x : ℚ) : ℚ := (rhEven (x * 100) : ℤ) / 100

/-- Structural-recursion integer square root (kernel-evaluable stand-in for
Nat.sqrt). -/
def natSqrt (n : ℕ) : ℕ := ((List.range (n + 1)).filter (fun k => k * k ≤ n)).length - 1

/-- Square root on ℚ.  The source computes a floating-point square root; this
model is exact on rationals whose reduced numerator and denominator are
perfect squares (in particular sqrtQ 0 = 0, the only value the theorems in
this file depend on). -/
def sqrtQ (x : ℚ) : ℚ := (natSqrt x.num.toNat : ℚ) / (natSqrt x.den : ℚ)

/-- One OHLCV bar of `hist_data` (the `open` key is `open_`, `open` being a
Lean keyword).  The intraday `time` key is absent from the daily data model;
the anchor label retrieved by the detectors is the `date` field. -/
structure Bar where
  date : String
  open_ : ℚ
  high : ℚ
  low : ℚ
  close : ℚ
  volume : ℕ
deriving DecidableEq, Repr

def defaultBar : Bar := ⟨("") , 0, 0, 0, 0, 0⟩

def barAt (hist : List Bar) (i : ℕ) : Bar := hist.getD i defaultBar

/-- The close-price series `df["close"]`. -/
def closes (hist : List Bar) : List ℚ := hist.map Bar.close

/-- Last w entries of the first i+1 entries: the trailing window that
pandas `rolling(window=w)` averages at position i. -/
def windowSlice (xs : List ℚ) (i w : ℕ) : List ℚ := (xs.take (i + 1)).drop (i + 1 - w)

/-- Arithmetic mean of the trailing w-window ending at position i. -/
def windowMean (w : ℕ) (xs : List ℚ) (i : ℕ) : ℚ := (windowSlice xs i w).sum / (w : ℚ)

/-- `series.rolling(window=w).mean()` at position i: NaN (none) until w
values are available. -/
def smaAt (w : ℕ) (xs : List ℚ) (i : ℕ) : Option ℚ :=
  if i + 1 < w then none else some (windowMean w xs i)

/-- `series.ewm(span=w, adjust=False).mean()` at position i: the plain EMA
recurrence y(0) = x(0), y(i) = x(i)*k + y(i-1)*(1-k). -/
def ewmRecAt (k : ℚ) (xs : List ℚ) : ℕ → ℚ
  | 0 => xs.getD 0 0
  | i + 1 => xs.getD (i + 1) 0 * k + ewmRecAt k xs i * (1 - k)

/-- `series.ewm(span=w).mean()` with the pandas default adjust=True at
position i: the weight-normalized exponentially weighted mean. -/
def ewmAdjAt (k : ℚ) (xs : List ℚ) (i : ℕ) : ℚ :=
  (((List.range (i + 1)).map (fun j => (1 - k) ^ j * xs.getD (i - j) 0)).sum)
    / (((List.range (i + 1)).map (fun j => (1 - k) ^ j)).sum)

/-- `delta.where(delta > 0, 0)`: per-bar gain; the NaN first difference is
replaced by 0 because `NaN > 0` is false. -/
def gainList (xs : List ℚ) : List ℚ :=
  (List.range xs.length).map (fun i =>
    if i = 0 then 0
    else if 0 < xs.getD i 0 - xs.getD (i - 1) 0 then xs.getD i 0 - xs.getD (i - 1) 0 else 0)

/-- `-delta.where(delta < 0, 0)`: per-bar loss, nonnegative. -/
def lossList (xs : List ℚ) : List ℚ :=
  (List.range xs.length).map (fun i =>
    if i = 0 then 0
    else if xs.getD i 0 - xs.getD (i - 1) 0 < 0 then -(xs.getD i 0 - xs.getD (i - 1) 0) else 0)

/-- The raw (unrounded) RSI series: 14-bar trailing means of gain and loss;
a zero mean loss is replaced by NaN (`loss.replace(0, np.nan)`), so the RSI
entry is missing there. -/
def rsiRawAt (xs : List ℚ) (i : ℕ) : Option ℚ :=
  if i + 1 < 14 then none
  else if windowMean 14 (lossList xs) i = 0 then none
  else some (100 - 100 / (1 + windowMean 14 (gainList xs) i / windowMean 14 (lossList xs) i))

/-- Raw MACD line: `close.ewm(span=12).mean() - close.ewm(span=26).mean()`
(pandas default adjust=True; smoothing factors 2/13 and 2/27). -/
def macdRawAt (xs : List ℚ) (i : ℕ) : ℚ := ewmAdjAt (2/13) xs i - ewmAdjAt (2/27) xs i

def macdRawList (xs : List ℚ) : List ℚ := (List.range xs.length).map (macdRawAt xs)

/-- Raw signal line: `macd_line.ewm(span=9).mean()` (adjust=True, factor 1/5). -/
def signalRawAt (xs : List ℚ) (i : ℕ) : ℚ := ewmAdjAt (1/5) (macdRawList xs) i

/-- Sample variance of the trailing 20-window (`rolling(20).std()` squares,
pandas uses ddof=1). -/
def bbVarAt (xs : List ℚ) (i : ℕ) : ℚ :=
  (((windowSlice xs i 20).map (fun x => (x - windowMean 20 xs i) ^ 2)).sum) / 19

def bbUpperAt (xs : List ℚ) (i : ℕ) : Option ℚ :=
  if i + 1 < 20 then none else some (windowMean 20 xs i + sqrtQ (bbVarAt xs i) * 2)

def bbLowerAt (xs : List ℚ) (i : ℕ) : Option ℚ :=
  if i + 1 < 20 then none else some (windowMean 20 xs i - sqrtQ (bbVarAt xs i) * 2)

def minList : List ℚ → ℚ
  | [] => 0
  | x :: xs => xs.foldl min x

def maxList : List ℚ → ℚ
  | [] => 0
  | x :: xs => xs.foldl max x

/-- Convert a pandas series to a list, rounding and replacing NaN with None. -/
def _safe_round_series (l : List (Option ℚ)) : List (Option ℚ) :=
  l.map (Option.map round2)

/-- The indicator dictionary built by `calculate_indicators` on success.
Per-bar series are full-length lists aligned with the input; missing keys of
a caller-supplied dictionary are modelled by the neutral defaults the code
reads back with `.get` (empty lists, 50, 0, none). -/
structure IndicatorSet where
  sma_20 : List (Option ℚ)
  sma_50 : List (Option ℚ)
  sma_200 : List (Option ℚ)
  ema_12 : List (Option ℚ)
  ema_26 : List (Option ℚ)
  rsi : List (Option ℚ)
  macd_line : List (Option ℚ)
  macd_signal : List (Option ℚ)
  macd_histogram : List (Option ℚ)
  bb_upper : List (Option ℚ)
  bb_middle : List (Option ℚ)
  bb_lower : List (Option ℚ)
  support : ℚ
  resistance : ℚ
  current_rsi : ℚ
  current_macd : ℚ
  current_sma_50 : Option ℚ
  current_sma_200 : Option ℚ
deriving DecidableEq, Repr

/-- The indicator set computed for a series of at least 20 bars (the body of
`calculate_indicators` after the length check). -/
def indicatorsOf (hist : List Bar) : IndicatorSet :=
  let cs := closes hist
  let n := hist.length
  let sma50 := _safe_round_series ((List.range n).map (smaAt 50 cs))
  let sma200 := _safe_round_series ((List.range n).map (smaAt 200 cs))
  { sma_20 := _safe_round_series ((List.range n).map (smaAt 20 cs))
    sma_50 := sma50
    sma_200 := sma200
    ema_12 := _safe_round_series ((List.range n).map (fun i => some (ewmRecAt (2/13) cs i)))
    ema_26 := _safe_round_series ((List.range n).map (fun i => some (ewmRecAt (2/27) cs i)))
    rsi := _safe_round_series ((List.range n).map (rsiRawAt cs))
    macd_line := _safe_round_series ((List.range n).map (fun i => some (macdRawAt cs i)))
    macd_signal := _safe_round_series ((List.range n).map (fun i => some (signalRawAt cs i)))
    macd_histogram :=
      _safe_round_series ((List.range n).map (fun i => some (macdRawAt cs i - signalRawAt cs i)))
    bb_upper := _safe_round_series ((List.range n).map (bbUpperAt cs))
    bb_middle := _safe_round_series ((List.range n).map (smaAt 20 cs))
    bb_lower := _safe_round_series ((List.range n).map (bbLowerAt cs))
    support := round2 (minList (cs.drop (n - 60)))
    resistance := round2 (maxList (cs.drop (n - 60)))
    current_rsi := match rsiRawAt cs (n - 1) with
      | some v => round2 v
      | none => 50
    current_macd := round2 (macdRawAt cs (n - 1))
    current_sma_50 := (sma50.getD (n - 1) none).map round2
    current_sma_200 := (sma200.getD (n - 1) none).map round2 }

/-- `calculate_indicators`: fails with the insufficient-data error for fewer
than 20 bars (in particular for the empty list), otherwise produces the
indicator set. -/
def calculate_indicators (hist_data : List Bar) : Except String IndicatorSet :=
  if hist_data.length < 20 then Except.error ("Insufficient data for indicator calculations")
  else Except.ok (indicatorsOf hist_data)

/-- A detected pattern.  Composite patterns of the source carry no
`category` key, hence `Option`.  Description strings are the static part of
the source message; the interpolated numbers/dates of the f-strings are not
modelled (no claim concerns the message text). -/
structure Pattern where
  type : String
  description : String
  signal : String
  confidence : ℕ
  date : String
  category : Option String
deriving DecidableEq, Repr

def dojiPat (d : String) : Pattern :=
  ⟨("Doji"), ("indecision in the market, body is very small relative to the range"),
    ("neutral"), 55, d, some ("candlestick")⟩

def hammerPat (d : String) : Pattern :=
  ⟨("Hammer"), ("buyers pushing price up from the low, potential reversal"),
    ("bullish"), 65, d, some ("candlestick")⟩

def invHammerPat (d : String) : Pattern :=
  ⟨("Inverted Hammer"), ("potential bullish reversal after downtrend"),
    ("bullish"), 60, d, some ("candlestick")⟩

def bullEngulfPat (d : String) : Pattern :=
  ⟨("Bullish Engulfing"), ("green candle fully engulfs prior red candle, strong buy signal"),
    ("bullish"), 72, d, some ("candlestick")⟩

def bearEngulfPat (d : String) : Pattern :=
  ⟨("Bearish Engulfing"), ("red candle fully engulfs prior green candle, strong sell signal"),
    ("bearish"), 72, d, some ("candlestick")⟩

def morningPat (d : String) : Pattern :=
  ⟨("Morning Star"), ("3-candle bullish reversal, trend may reverse upward"),
    ("bullish"), 75, d, some ("candlestick")⟩

def eveningPat (d : String) : Pattern :=
  ⟨("Evening Star"), ("3-candle bearish reversal, trend may reverse downward"),
    ("bearish"), 75, d, some ("candlestick")⟩

def soldiersPat (d : String) : Pattern :=
  ⟨("Three White Soldiers"), ("three consecutive bullish candles, strong uptrend signal"),
    ("bullish"), 78, d, some ("candlestick")⟩

def crowsPat (d : String) : Pattern :=
  ⟨("Three Black Crows"), ("three consecutive bearish candles, strong downtrend signal"),
    ("bearish"), 78, d, some ("candlestick")⟩

def oAt (hist : List Bar) (j : ℕ) : ℚ := (barAt hist j).open_
def hAt (hist : List Bar) (j : ℕ) : ℚ := (barAt hist j).high
def lAt (hist : List Bar) (j : ℕ) : ℚ := (barAt hist j).low
def cAt (hist : List Bar) (j : ℕ) : ℚ := (barAt hist j).close
def dateAt (hist : List Bar) (j : ℕ) : String := (barAt hist j).date

def bodyAt (hist : List Bar) (i : ℕ) : ℚ := |cAt hist i - oAt hist i|
def rangeAt (hist : List Bar) (i : ℕ) : ℚ := hAt hist i - lAt hist i
def upShadowAt (hist : List Bar) (i : ℕ) : ℚ := hAt hist i - max (oAt hist i) (cAt hist i)
def loShadowAt (hist : List Bar) (i : ℕ) : ℚ := min (oAt hist i) (cAt hist i) - lAt hist i

def bodyList (hist : List Bar) : List ℚ := (List.range hist.length).map (bodyAt hist)

/-- `body.rolling(window=20, min_periods=5).mean()` at position i. -/
def avgBodyAt (hist : List Bar) (i : ℕ) : Option ℚ :=
  if i + 1 < 5 then none
  else some ((windowSlice (bodyList hist) i 20).sum / (min 20 (i + 1) : ℕ))

/-- The Doji / Hammer / Inverted Hammer if-elif chain at anchor i. -/
def dojiGroupAt (hist : List Bar) (i : ℕ) : List Pattern :=
  let b := bodyAt hist i
  let r := rangeAt hist i
  if b < r * (1/10) ∧ 0 < r then [dojiPat (dateAt hist i)]
  else if b * 2 < loShadowAt hist i ∧ upShadowAt hist i < b * (1/2)
      ∧ oAt hist i < cAt hist i ∧ 2 < i then
    (if cAt hist (i - 1) < cAt hist (i - 2) then [hammerPat (dateAt hist i)] else [])
  else if b * 2 < upShadowAt hist i ∧ loShadowAt hist i < b * (1/2) ∧ 0 < b ∧ 2 < i then
    (if cAt hist (i - 1) < cAt hist (i - 2) then [invHammerPat (dateAt hist i)] else [])
  else []

def bullEngulfAt (hist : List Bar) (i : ℕ) : List Pattern :=
  if 0 < i ∧ oAt hist i < cAt hist i then
    (if cAt hist (i - 1) < oAt hist (i - 1) ∧ oAt hist i ≤ cAt hist (i - 1)
        ∧ oAt hist (i - 1) ≤ cAt hist i ∧ bodyAt hist (i - 1) < bodyAt hist i
     then [bullEngulfPat (dateAt hist i)] else [])
  else []

def bearEngulfAt (hist : List Bar) (i : ℕ) : List Pattern :=
  if 0 < i ∧ cAt hist i < oAt hist i then
    (if oAt hist (i - 1) < cAt hist (i - 1) ∧ cAt hist (i - 1) ≤ oAt hist i
        ∧ cAt hist i ≤ oAt hist (i - 1) ∧ bodyAt hist (i - 1) < bodyAt hist i
     then [bearEngulfPat (dateAt hist i)] else [])
  else []

def morningStarAt (hist : List Bar) (i : ℕ) : List Pattern :=
  let ab := (avgBodyAt hist i).getD (bodyAt hist i)
  if 2 ≤ i then
    (if (cAt hist (i - 2) < oAt hist (i - 2) ∧ ab * (1/2) < bodyAt hist (i - 2))
        ∧ bodyAt hist (i - 1) < ab * (3/10)
        ∧ (oAt hist i < cAt hist i ∧ ab * (1/2) < bodyAt hist i)
        ∧ (oAt hist (i - 2) + cAt hist (i - 2)) / 2 < cAt hist i
     then [morningPat (dateAt hist i)] else [])
  else []

def eveningStarAt (hist : List Bar) (i : ℕ) : List Pattern :=
  let ab := (avgBodyAt hist i).getD (bodyAt hist i)
  if 2 ≤ i then
    (if (oAt hist (i - 2) < cAt hist (i - 2) ∧ ab * (1/2) < bodyAt hist (i - 2))
        ∧ bodyAt hist (i - 1) < ab * (3/10)
        ∧ (cAt hist i < oAt hist i ∧ ab * (1/2) < bodyAt hist i)
        ∧ cAt hist i < (oAt hist (i - 2) + cAt hist (i - 2)) / 2
     then [eveningPat (dateAt hist i)] else [])
  else []

def soldiersAt (hist : List Bar) (i : ℕ) : List Pattern :=
  let ab := (avgBodyAt hist i).getD (bodyAt hist i)
  if 2 ≤ i then
    (if (oAt hist i < cAt hist i ∧ oAt hist (i - 1) < cAt hist (i - 1)
          ∧ oAt hist (i - 2) < cAt hist (i - 2))
        ∧ (cAt hist (i - 1) < cAt hist i ∧ cAt hist (i - 2) < cAt hist (i - 1))
        ∧ (ab * (2/5) < bodyAt hist i ∧ ab * (2/5) < bodyAt hist (i - 1)
          ∧ ab * (2/5) < bodyAt hist (i - 2))
     then [soldiersPat (dateAt hist i)] else [])
  else []

def crowsAt (hist : List Bar) (i : ℕ) : List Pattern :=
  let ab := (avgBodyAt hist i).getD (bodyAt hist i)
  if 2 ≤ i then
    (if (cAt hist i < oAt hist i ∧ cAt hist (i - 1) < oAt hist (i - 1)
          ∧ cAt hist (i - 2) < oAt hist (i - 2))
        ∧ (cAt hist i < cAt hist (i - 1) ∧ cAt hist (i - 1) < cAt hist (i - 2))
        ∧ (ab * (2/5) < bodyAt hist i ∧ ab * (2/5) < bodyAt hist (i - 1)
          ∧ ab * (2/5) < bodyAt hist (i - 2))
     then [crowsPat (dateAt hist i)] else [])
  else []

/-- The loop body of `detect_candlestick_patterns` at anchor bar i
(zero-range bars are skipped). -/
def patternsAt (hist : List Bar) (i : ℕ) : List Pattern :=
  if rangeAt hist i = 0 then []
  else
    dojiGroupAt hist i ++ bullEngulfAt hist i ++ bearEngulfAt hist i
      ++ morningStarAt hist i ++ eveningStarAt hist i ++ soldiersAt hist i ++ crowsAt hist i

/-- `range(max(3, len(df) - 15), len(df))`: the anchor indices scanned. -/
def scanIndices (n : ℕ) : List ℕ := List.range' (max 3 (n - 15)) (n - max 3 (n - 15))

def rawCandlestick (hist : List Bar) : List Pattern :=
  ((scanIndices hist.length).map (patternsAt hist)).flatten

/-- One step of the dedup dictionary `seen`: the champion list keeps at most
one pattern per type in first-insertion order; a new pattern replaces the
champion of its type only on strictly greater confidence. -/
def dedupInsert : List Pattern → Pattern → List Pattern
  | [], p => [p]
  | q :: rest, p =>
    if q.type = p.type then
      (if q.confidence < p.confidence then p :: rest else q :: rest)
    else q :: dedupInsert rest p

/-- `list(seen.values())` after inserting every raw pattern in order. -/
def dedupPatterns (ps : List Pattern) : List Pattern := ps.foldl dedupInsert []

/-- `detect_candlestick_patterns`: empty below 5 bars, otherwise the scanned
patterns deduplicated by type. -/
def detect_candlestick_patterns (hist_data : List Bar) : List Pattern :=
  if hist_data.length < 5 then [] else dedupPatterns (rawCandlestick hist_data)

def lastClose (hist : List Bar) : ℚ := cAt hist (hist.length - 1)
def lastDate (hist : List Bar) : String := dateAt hist (hist.length - 1)

/-- Python `l[-k]` on an optional-value series (none for the empty list). -/
def negIdx (l : List (Option ℚ)) (k : ℕ) : Option ℚ := l.getD (l.length - k) none

def goldenPat (d : String) : Pattern :=
  ⟨("Golden Cross"), ("50-day MA crossed above 200-day MA"), ("bullish"), 75, d, none⟩

def deathPat (d : String) : Pattern :=
  ⟨("Death Cross"), ("50-day MA crossed below 200-day MA"), ("bearish"), 75, d, none⟩

def strongUpPat (d : String) : Pattern :=
  ⟨("Strong Uptrend"), ("Price above 50-day MA, which is above 200-day MA"),
    ("bullish"), 70, d, none⟩

def strongDownPat (d : String) : Pattern :=
  ⟨("Strong Downtrend"), ("Price below 50-day MA, which is below 200-day MA"),
    ("bearish"), 70, d, none⟩

def rsiObPat (d : String) : Pattern :=
  ⟨("RSI Overbought"), ("RSI above 70, stock may be overbought"), ("bearish"), 65, d, none⟩

def rsiOsPat (d : String) : Pattern :=
  ⟨("RSI Oversold"), ("RSI below 30, stock may be oversold"), ("bullish"), 65, d, none⟩

def macdBullPat (d : String) : Pattern :=
  ⟨("MACD Bullish Crossover"), ("MACD line crossed above signal line"), ("bullish"), 60, d, none⟩

def macdBearPat (d : String) : Pattern :=
  ⟨("MACD Bearish Crossover"), ("MACD line crossed below signal line"), ("bearish"), 60, d, none⟩

def bbUpPat (d : String) : Pattern :=
  ⟨("Bollinger Band Upper Touch"), ("Price touching upper Bollinger Band, potential resistance"),
    ("bearish"), 55, d, none⟩

def bbLoPat (d : String) : Pattern :=
  ⟨("Bollinger Band Lower Touch"), ("Price touching lower Bollinger Band, potential support"),
    ("bullish"), 55, d, none⟩

def doubleTopPat (d : String) : Pattern :=
  ⟨("Double Top"), ("Two similar peaks, bearish reversal signal"), ("bearish"), 60, d, none⟩

def doubleBottomPat (d : String) : Pattern :=
  ⟨("Double Bottom"), ("Two similar troughs, bullish reversal signal"), ("bullish"), 60, d, none⟩

def volumeSpikePat (d : String) : Pattern :=
  ⟨("Volume Spike"), ("Volume above twice the 20-day average"), ("neutral"), 70, d, none⟩

def nearSupportPat (d : String) : Pattern :=
  ⟨("Near Support"), ("Price near support level"), ("bullish"), 55, d, none⟩

def nearResistancePat (d : String) : Pattern :=
  ⟨("Near Resistance"), ("Price near resistance level"), ("bearish"), 55, d, none⟩

/-- Golden Cross / Death Cross branch of `detect_patterns`. -/
def goldenDeathList (d : IndicatorSet) (date : String) : List Pattern :=
  if 2 ≤ d.sma_50.length ∧ 2 ≤ d.sma_200.length then
    match negIdx d.sma_50 1, negIdx d.sma_200 1, negIdx d.sma_50 2, negIdx d.sma_200 2 with
    | some a1, some b1, some a2, some b2 =>
      if b1 < a1 ∧ a2 ≤ b2 then [goldenPat date]
      else if a1 < b1 ∧ b2 ≤ a2 then [deathPat date]
      else []
    | _, _, _, _ => []
  else []

/-- Trend-regime branch (price vs SMA50 vs SMA200). -/
def trendList (d : IndicatorSet) (price : ℚ) (date : String) : List Pattern :=
  match negIdx d.sma_50 1, negIdx d.sma_200 1 with
  | some a, some b =>
    if b < a ∧ a < price then [strongUpPat date]
    else if price < a ∧ a < b then [strongDownPat date]
    else []
  | _, _ => []

/-- RSI overbought/oversold branch. -/
def rsiSignalList (d : IndicatorSet) (date : String) : List Pattern :=
  if 70 < d.current_rsi then [rsiObPat date]
  else if d.current_rsi < 30 then [rsiOsPat date]
  else []

/-- MACD crossover branch. -/
def macdCrossList (d : IndicatorSet) (date : String) : List Pattern :=
  if 2 ≤ d.macd_line.length ∧ 2 ≤ d.macd_signal.length then
    match negIdx d.macd_line 1, negIdx d.macd_signal 1,
        negIdx d.macd_line 2, negIdx d.macd_signal 2 with
    | some m1, some s1, some m2, some s2 =>
      if s1 < m1 ∧ m2 ≤ s2 then [macdBullPat date]
      else if m1 < s1 ∧ s2 ≤ m2 then [macdBearPat date]
      else []
    | _, _, _, _ => []
  else []

/-- Bollinger-band touch branch. -/
def bbTouchList (d : IndicatorSet) (price : ℚ) (date : String) : List Pattern :=
  match negIdx d.bb_upper 1, negIdx d.bb_lower 1 with
  | some u, some lo =>
    if u ≤ price then [bbUpPat date]
    else if price ≤ lo then [bbLoPat date]
    else []
  | _, _ => []

/-- Local maxima of the trailing 30 closes (strictly above both neighbours
on each side, 5-point window). -/
def localHighs (recent : List ℚ) : List ℚ :=
  (List.range' 2 26).filterMap (fun i =>
    if recent.getD (i - 1) 0 < recent.getD i 0 ∧ recent.getD (i - 2) 0 < recent.getD i 0
        ∧ recent.getD (i + 1) 0 < recent.getD i 0 ∧ recent.getD (i + 2) 0 < recent.getD i 0
    then some (recent.getD i 0) else none)

def localLows (recent : List ℚ) : List ℚ :=
  (List.range' 2 26).filterMap (fun i =>
    if recent.getD i 0 < recent.getD (i - 1) 0 ∧ recent.getD i 0 < recent.getD (i - 2) 0
        ∧ recent.getD i 0 < recent.getD (i + 1) 0 ∧ recent.getD i 0 < recent.getD (i + 2) 0
    then some (recent.getD i 0) else none)

/-- Double Top / Double Bottom branch over the trailing 30 closes. -/
def doubleList (cs : List ℚ) (date : String) : List Pattern :=
  if 30 ≤ cs.length then
    let recent := cs.drop (cs.length - 30)
    let highs := localHighs recent
    let lows := localLows recent
    (if 2 ≤ highs.length then
      (let h1 := highs.getD (highs.length - 2) 0
       let h2 := highs.getD (highs.length - 1) 0
       if |h1 - h2| / max h1 h2 < 2/100 then [doubleTopPat date] else [])
     else [])
    ++
    (if 2 ≤ lows.length then
      (let l1 := lows.getD (lows.length - 2) 0
       let l2 := lows.getD (lows.length - 1) 0
       if |l1 - l2| / max l1 l2 < 2/100 then [doubleBottomPat date] else [])
     else [])
  else []

/-- Volume-spike branch: last volume above twice the trailing-20 mean. -/
def volumeList (hist : List Bar) (date : String) : List Pattern :=
  if 20 ≤ hist.length then
    let vols := hist.map (fun b => (b.volume : ℚ))
    let avg := (vols.drop (hist.length - 20)).sum / 20
    if avg * 2 < ((barAt hist (hist.length - 1)).volume : ℚ) then [volumeSpikePat date] else []
  else []

/-- Support/resistance proximity branch.  A missing or zero support or
resistance value is falsy in the source; both cases are the 0 value here. -/
def suppResList (d : IndicatorSet) (price : ℚ) (date : String) : List Pattern :=
  if d.support ≠ 0 ∧ d.resistance ≠ 0 then
    (if price < d.support * (102/100) then [nearSupportPat date] else [])
      ++ (if d.resistance * (98/100) < price then [nearResistancePat date] else [])
  else []

/-- `detect_patterns`: empty on an empty series or an error-marked indicator
dictionary, otherwise the candlestick patterns followed by the composite
branches in source order. -/
def detect_patterns (hist_data : List Bar) (indicators : Except String IndicatorSet) :
    List Pattern :=
  match indicators with
  | Except.error _ => []
  | Except.ok d =>
    if hist_data.length = 0 then []
    else
      detect_candlestick_patterns hist_data
        ++ goldenDeathList d (lastDate hist_data)
        ++ trendList d (lastClose hist_data) (lastDate hist_data)
        ++ rsiSignalList d (lastDate hist_data)
        ++ macdCrossList d (lastDate hist_data)
        ++ bbTouchList d (lastClose hist_data) (lastDate hist_data)
        ++ doubleList (closes hist_data) (lastDate hist_data)
        ++ volumeList hist_data (lastDate hist_data)
        ++ suppResList d (lastClose hist_data) (lastDate hist_data)

/-- A strictly increasing demo series: bar i has close 100 + i. -/
def demoUp (n : ℕ) : List Bar :=
  (List.range n).map (fun (i : ℕ) =>
    ⟨toString i, 100 + (i : ℚ), 101 + (i : ℚ), 99 + (i : ℚ), 100 + (i : ℚ), 1000⟩)

/-- 20 identical bars (zero range, zero variance). -/
def flat20 : List Bar :=
  (List.range 20).map (fun i => ⟨toString i, 100, 100, 100, 100, 1000⟩)

/-- 20 bars whose closes are 1, then 13 nineteen times: at position 1 the
adjusted and recurrence EMAs differ widely. -/
def c4Bars : List Bar :=
  ⟨("d0"), 1, 1, 1, 1, 1000⟩ :: (List.range 19).map (fun i => ⟨toString i, 13, 13, 13, 13, 1000⟩)

/-- 20 bars with closes 100, 101 (x18), 102: support 100, resistance 102,
last price exactly 102 = support * 1.02. -/
def nearBars : List Bar :=
  ⟨("p0"), 100, 101, 99, 100, 1000⟩ ::
    ((List.range 18).map (fun i => ⟨toString i, 101, 102, 100, 101, 1000⟩)
      ++ [⟨("p19"), 102, 103, 101, 102, 1000⟩])

/-- 20 bars with alternating closes 100, 99, ...: both gains and losses in
every trailing 14-window. -/
def zigzagBars : List Bar :=
  (List.range 20).map (fun i =>
    if i % 2 = 0 then ⟨toString i, 100, 101, 98, 100, 1000⟩
    else ⟨toString i, 99, 101, 98, 99, 1000⟩)

/-- 5 identical doji-shaped bars (tiny body, huge range). -/
def dojiBars : List Bar :=
  (List.range 5).map (fun i => ⟨toString i, 100, 110, 90, 201/2, 1000⟩)

/-- A 2-bar series (below the candlestick minimum). -/
def twoBars : List Bar := [⟨("a"), 1, 2, 1, 1, 10⟩, ⟨("b"), 1, 2, 1, 1, 10⟩]

/-- A hand-crafted indicator dictionary with no error marker whose SMA
series encode a golden cross; every other key holds its neutral default. -/
def craftedInd : IndicatorSet :=
  { sma_20 := [], sma_50 := [some 1, some 3], sma_200 := [some 2, some (5/2)]
    ema_12 := [], ema_26 := [], rsi := []
    macd_line := [], macd_signal := [], macd_histogram := []
    bb_upper := [], bb_middle := [], bb_lower := []
    support := 0, resistance := 0, current_rsi := 50, current_macd := 0
    current_sma_50 := none, current_sma_200 := none }

/-- p is the champion of its type among the processed patterns `done`: no
detection of the same type has strictly greater confidence, and every one
occurring strictly earlier has strictly smaller confidence. -/
def isChampion (done : List Pattern) (p : Pattern) : Prop :=
  (∀ q ∈ done, q.type = p.type → q.confidence ≤ p.confidence)
  ∧ ∃ l1 l2, done = l1 ++ p :: l2 ∧ ∀ q ∈ l1, q.type = p.type → q.confidence < p.confidence

/-- Invariant of the dedup fold: `acc` holds pairwise distinct types, covers
every processed type, and each entry is the champion of its type. -/
def dedupGood (done acc : List Pattern) : Prop :=
  (acc.map Pattern.type).Nodup
  ∧ (∀ q ∈ done, ∃ p ∈ acc, p.type = q.type)
  ∧ (∀ p ∈ acc, isChampion done p)

/-- The closed set of candlestick pattern types. -/
def candleTypes : List String :=
  [("Doji"), ("Hammer"), ("Inverted Hammer"), ("Bullish Engulfing"), ("Bearish Engulfing"),
    ("Morning Star"), ("Evening Star"), ("Three White Soldiers"), ("Three Black Crows")]

/-- The closed set of composite pattern types. -/
def compositeTypes : List String :=
  [("Golden Cross"), ("Death Cross"), ("Strong Uptrend"), ("Strong Downtrend"),
    ("RSI Overbought"), ("RSI Oversold"), ("MACD Bullish Crossover"), ("MACD Bearish Crossover"),
    ("Bollinger Band Upper Touch"), ("Bollinger Band Lower Touch"), ("Double Top"),
    ("Double Bottom"), ("Volume Spike"), ("Near Support"), ("Near Resistance")]

/-! ### Helper lemmas: rounding -/

theorem ratFloor_eq_floor (x : ℚ) : x.floor = ⌊x⌋ := by
  rw [Rat.floor_def', Rat.floor_def]

theorem rhEven_bounds (x : ℚ) : ⌊x⌋ ≤ rhEven x ∧ rhEven x ≤ ⌊x⌋ + 1 := by
  unfold rhEven
  simp only [ratFloor_eq_floor]
  split_ifs <;> omega

theorem rhEven_mono {x y : ℚ} (h : x ≤ y) : rhEven x ≤ rhEven y := by
  unfold rhEven
  simp only [ratFloor_eq_floor]
  have hff : ⌊x⌋ ≤ ⌊y⌋ := Int.floor_mono h
  rcases lt_or_eq_of_le hff with hlt | heq
  · split_ifs <;> omega
  · have hxy : x - (⌊x⌋ : ℚ) ≤ y - (⌊y⌋ : ℚ) := by rw [heq]; linarith
    rw [heq] at hxy ⊢
    split_ifs <;> first | omega | linarith

theorem round2_mono {x y : ℚ} (h : x ≤ y) : round2 x ≤ round2 y := by
  unfold round2
  have h1 : rhEven (x * 100) ≤ rhEven (y * 100) := rhEven_mono (by linarith)
  have h2 : (rhEven (x * 100) : ℚ) ≤ (rhEven (y * 100) : ℚ) := by exact_mod_cast h1
  gcongr

theorem round2_zero : round2 0 = 0 := by decide

theorem round2_hundred : round2 100 = 100 := by decide

theorem round2_nonneg {x : ℚ} (h : 0 ≤ x) : 0 ≤ round2 x := by
  calc (0 : ℚ) = round2 0 := round2_zero.symm
    _ ≤ round2 x := round2_mono h

theorem round2_le_hundred {x : ℚ} (h : x ≤ 100) : round2 x ≤ 100 := by
  calc round2 x ≤ round2 100 := round2_mono h
    _ = 100 := round2_hundred

/-! ### Helper lemmas: list indexing in the indicator series -/

theorem getD_map_range {α : Type} (f : ℕ → α) (d : α) {n i : ℕ} (hi : i < n) :
    ((List.range n).map f).getD i d = f i := by
  rw [List.getD_eq_getElem?_getD, List.getElem?_map, List.getElem?_range hi]
  rfl

theorem safe_round_length (l : List (Option ℚ)) :
    (_safe_round_series l).length = l.length := by
  simp [_safe_round_series]

theorem safe_round_map_getD (f : ℕ → Option ℚ) {n i : ℕ} (hi : i < n) :
    (_safe_round_series ((List.range n).map f)).getD i none = (f i).map round2 := by
  unfold _safe_round_series
  rw [List.map_map]
  exact getD_map_range _ _ hi

theorem indicatorsOf_sma_20 (hist : List Bar) : (indicatorsOf hist).sma_20
    = _safe_round_series ((List.range hist.length).map (smaAt 20 (closes hist))) := rfl

theorem indicatorsOf_sma_50 (hist : List Bar) : (indicatorsOf hist).sma_50
    = _safe_round_series ((List.range hist.length).map (smaAt 50 (closes hist))) := rfl

theorem indicatorsOf_sma_200 (hist : List Bar) : (indicatorsOf hist).sma_200
    = _safe_round_series ((List.range hist.length).map (smaAt 200 (closes hist))) := rfl

theorem indicatorsOf_ema_12 (hist : List Bar) : (indicatorsOf hist).ema_12
    = _safe_round_series ((List.range hist.length).map
        (fun i => some (ewmRecAt (2/13) (closes hist) i))) := rfl

theorem indicatorsOf_ema_26 (hist : List Bar) : (indicatorsOf hist).ema_26
    = _safe_round_series ((List.range hist.length).map
        (fun i => some (ewmRecAt (2/27) (closes hist) i))) := rfl

theorem indicatorsOf_rsi (hist : List Bar) : (indicatorsOf hist).rsi
    = _safe_round_series ((List.range hist.length).map (rsiRawAt (closes hist))) := rfl

theorem indicatorsOf_macd_line (hist : List Bar) : (indicatorsOf hist).macd_line
    = _safe_round_series ((List.range hist.length).map
        (fun i => some (macdRawAt (closes hist) i))) := rfl

theorem indicatorsOf_macd_signal (hist : List Bar) : (indicatorsOf hist).macd_signal
    = _safe_round_series ((List.range hist.length).map
        (fun i => some (signalRawAt (closes hist) i))) := rfl

theorem indicatorsOf_macd_histogram (hist : List Bar) : (indicatorsOf hist).macd_histogram
    = _safe_round_series ((List.range hist.length).map
        (fun i => some (macdRawAt (closes hist) i - signalRawAt (closes hist) i))) := rfl

theorem indicatorsOf_bb_upper (hist : List Bar) : (indicatorsOf hist).bb_upper
    = _safe_round_series ((List.range hist.length).map (bbUpperAt (closes hist))) := rfl

theorem indicatorsOf_bb_middle (hist : List Bar) : (indicatorsOf hist).bb_middle
    = _safe_round_series ((List.range hist.length).map (smaAt 20 (closes hist))) := rfl

theorem indicatorsOf_bb_lower (hist : List Bar) : (indicatorsOf hist).bb_lower
    = _safe_round_series ((List.range hist.length).map (bbLowerAt (closes hist))) := rfl

/-! ### Helper lemmas: calculate_indicators -/

theorem calculate_indicators_lt {hist : List Bar} (h : hist.length < 20) :
    calculate_indicators hist
      = Except.error ("Insufficient data for indicator calculations") := by
  unfold calculate_indicators
  rw [if_pos h]

theorem calculate_indicators_ge {hist : List Bar} (h : 20 ≤ hist.length) :
    calculate_indicators hist = Except.ok (indicatorsOf hist) := by
  unfold calculate_indicators
  rw [if_neg (by omega)]

theorem calculate_indicators_ok {hist : List Bar} {ind : IndicatorSet}
    (h : calculate_indicators hist = Except.ok ind) :
    20 ≤ hist.length ∧ ind = indicatorsOf hist := by
  unfold calculate_indicators at h
  split at h
  · exact absurd h (by simp)
  · exact ⟨by omega, (Except.ok.injEq _ _).mp h |>.symm⟩

/-! ### Helper lemmas: nonnegativity of the RSI components -/

theorem mem_windowSlice {xs : List ℚ} {i w : ℕ} {x : ℚ} (h : x ∈ windowSlice xs i w) :
    x ∈ xs := by
  unfold windowSlice at h
  exact List.mem_of_mem_take (List.mem_of_mem_drop h)

theorem windowMean_nonneg (w : ℕ) (xs : List ℚ) (i : ℕ) (hx : ∀ x ∈ xs, 0 ≤ x) :
    0 ≤ windowMean w xs i := by
  unfold windowMean
  apply div_nonneg
  · exact List.sum_nonneg (fun x hxm => hx x (mem_windowSlice hxm))
  · positivity

theorem gainList_nonneg (xs : List ℚ) : ∀ x ∈ gainList xs, 0 ≤ x := by
  intro x hx
  unfold gainList at hx
  rw [List.mem_map] at hx
  obtain ⟨j, _, rfl⟩ := hx
  split_ifs <;> linarith

theorem lossList_nonneg (xs : List ℚ) : ∀ x ∈ lossList xs, 0 ≤ x := by
  intro x hx
  unfold lossList at hx
  rw [List.mem_map] at hx
  obtain ⟨j, _, rfl⟩ := hx
  split_ifs <;> linarith

theorem smaAt_eq_none_iff (w : ℕ) (xs : List ℚ) (i : ℕ) :
    smaAt w xs i = none ↔ i + 1 < w := by
  unfold smaAt
  split_ifs with hc <;> simp [hc]

theorem bbUpperAt_eq_none_iff (xs : List ℚ) (i : ℕ) :
    bbUpperAt xs i = none ↔ i + 1 < 20 := by
  unfold bbUpperAt
  split_ifs with hc <;> simp [hc]

theorem bbLowerAt_eq_none_iff (xs : List ℚ) (i : ℕ) :
    bbLowerAt xs i = none ↔ i + 1 < 20 := by
  unfold bbLowerAt
  split_ifs with hc <;> simp [hc]

theorem rsiRawAt_of_lt {xs : List ℚ} {i : ℕ} (h : i + 1 < 14) : rsiRawAt xs i = none := by
  unfold rsiRawAt
  rw [if_pos h]

/-- C1: calculate_indicators fails with the InsufficientData error exactly on
series of fewer than 20 bars (including the empty series), producing no
indicator values there, and never fails with it on series of at least 20
bars. -/
theorem c1_insufficient_data (hist : List Bar) :
    (hist.length < 20 →
      calculate_indicators hist = Except.error ("Insufficient data for indicator calculations"))
    ∧ (20 ≤ hist.length → ∃ ind, calculate_indicators hist = Except.ok ind) :=
  ⟨fun h => calculate_indicators_lt h, fun h => ⟨indicatorsOf hist, calculate_indicators_ge h⟩⟩

/-- Witness for C1 at the empty series and a 20-bar series. -/
theorem c1_insufficient_data_witness :
    calculate_indicators [] = Except.error ("Insufficient data for indicator calculations")
    ∧ ∃ ind, calculate_indicators (demoUp 20) = Except.ok ind :=
  ⟨(c1_insufficient_data []).1 (by decide), (c1_insufficient_data (demoUp 20)).2 (by decide)⟩

/-- C2 counterexample: on 20 strictly increasing closes the trailing 14-bar
mean loss at position 19 is 0 and the RSI entry there is missing (None), not
capped at 100, although position 19 has at least 14 prior bars. -/
theorem c2_rsi_counterexample :
    calculate_indicators (demoUp 20) = Except.ok (indicatorsOf (demoUp 20))
    ∧ windowMean 14 (lossList (closes (demoUp 20))) 19 = 0
    ∧ (indicatorsOf (demoUp 20)).rsi.getD 19 none = none :=
  ⟨rfl, by decide, by decide⟩

/-- C2 (amended): for a series of at least 20 bars, an RSI entry at a
position with at least 13 prior bars is a defined value in [0, 100] whenever
the trailing 14-bar mean loss is nonzero; when that mean loss is 0 the entry
is None (missing) rather than 100. -/
theorem c2_rsi_range (hist : List Bar) (ind : IndicatorSet)
    (hok : calculate_indicators hist = Except.ok ind) (i : ℕ) (hi : i < hist.length)
    (h13 : 13 ≤ i) :
    (windowMean 14 (lossList (closes hist)) i ≠ 0 →
      ∃ v, ind.rsi.getD i none = some v ∧ 0 ≤ v ∧ v ≤ 100)
    ∧ (windowMean 14 (lossList (closes hist)) i = 0 → ind.rsi.getD i none = none) := by
  obtain ⟨h20, rfl⟩ := calculate_indicators_ok hok
  rw [indicatorsOf_rsi, safe_round_map_getD _ hi]
  constructor
  · intro hL
    have hg : 0 ≤ windowMean 14 (gainList (closes hist)) i :=
      windowMean_nonneg _ _ _ (gainList_nonneg _)
    have hL0 : 0 ≤ windowMean 14 (lossList (closes hist)) i :=
      windowMean_nonneg _ _ _ (lossList_nonneg _)
    have hrs : 0 ≤ windowMean 14 (gainList (closes hist)) i
        / windowMean 14 (lossList (closes hist)) i := div_nonneg hg hL0
    have hden : (0 : ℚ) < 1 + windowMean 14 (gainList (closes hist)) i
        / windowMean 14 (lossList (closes hist)) i := by linarith
    have hle : 100 / (1 + windowMean 14 (gainList (closes hist)) i
        / windowMean 14 (lossList (closes hist)) i) ≤ 100 := by
      rw [div_le_iff₀ hden]
      nlinarith
    have hpos : 0 < 100 / (1 + windowMean 14 (gainList (closes hist)) i
        / windowMean 14 (lossList (closes hist)) i) := by positivity
    unfold rsiRawAt
    rw [if_neg (by omega), if_neg hL]
    refine ⟨_, rfl, round2_nonneg (by linarith), round2_le_hundred (by linarith)⟩
  · intro hL
    unfold rsiRawAt
    rw [if_neg (by omega), if_pos hL]
    rfl

/-- Witness for C2 (amended) at an alternating 20-bar series, position 19. -/
theorem c2_rsi_range_witness :
    ∃ v, (indicatorsOf zigzagBars).rsi.getD 19 none = some v ∧ 0 ≤ v ∧ v ≤ 100 :=
  (c2_rsi_range zigzagBars _ rfl 19 (by decide) (by decide)).1 (by decide)

/-- C4 counterexample: on closes 1, 13, 13, ... the reported macd_line at
position 1 is 0.27 while the reported ema_12 minus ema_26 is 2.85 - 1.89 =
0.96: the MACD line is not the difference of the reported recurrence-based
EMAs, because the source computes it from adjust=True EMAs. -/
theorem c4_macd_counterexample :
    calculate_indicators c4Bars = Except.ok (indicatorsOf c4Bars)
    ∧ (indicatorsOf c4Bars).macd_line.getD 1 none = some (27/100)
    ∧ (indicatorsOf c4Bars).ema_12.getD 1 none = some (57/20)
    ∧ (indicatorsOf c4Bars).ema_26.getD 1 none = some (189/100)
    ∧ (27/100 : ℚ) ≠ round2 (57/20 - 189/100)
    ∧ (27/100 : ℚ) ≠ 57/20 - 189/100 :=
  ⟨rfl, by decide, by decide, by decide, by decide, by decide⟩

/-- C4 (amended): the reported macd_line is the rounded difference of the
span-12 and span-26 adjust=True (weight-normalized) EMAs of close — not of
the reported recurrence-based ema_12/ema_26 series; macd_signal is the
rounded 9-span adjust=True EMA of the unrounded MACD line, and
macd_histogram is the rounded difference of the unrounded MACD and signal
lines. -/
theorem c4_macd_adjusted (hist : List Bar) (ind : IndicatorSet)
    (hok : calculate_indicators hist = Except.ok ind) (i : ℕ) (hi : i < hist.length) :
    ind.macd_line.getD i none = some (round2 (macdRawAt (closes hist) i))
    ∧ macdRawAt (closes hist) i
        = ewmAdjAt (2/13) (closes hist) i - ewmAdjAt (2/27) (closes hist) i
    ∧ ind.macd_signal.getD i none = some (round2 (signalRawAt (closes hist) i))
    ∧ signalRawAt (closes hist) i = ewmAdjAt (1/5) (macdRawList (closes hist)) i
    ∧ ind.macd_histogram.getD i none
        = some (round2 (macdRawAt (closes hist) i - signalRawAt (closes hist) i)) := by
  obtain ⟨h20, rfl⟩ := calculate_indicators_ok hok
  refine ⟨?_, rfl, ?_, rfl, ?_⟩
  · rw [indicatorsOf_macd_line]
    simpa using safe_round_map_getD _ hi
  · rw [indicatorsOf_macd_signal]
    simpa using safe_round_map_getD _ hi
  · rw [indicatorsOf_macd_histogram]
    simpa using safe_round_map_getD _ hi

/-- Witness for C4 (amended) at the flat 20-bar series, position 0. -/
theorem c4_macd_adjusted_witness :
    (indicatorsOf flat20).macd_line.getD 0 none = some (round2 (macdRawAt (closes flat20) 0))
    ∧ (indicatorsOf flat20).macd_histogram.getD 0 none
        = some (round2 (macdRawAt (closes flat20) 0 - signalRawAt (closes flat20) 0)) :=
  ⟨(c4_macd_adjusted flat20 _ rfl 0 (by decide)).1,
   (c4_macd_adjusted flat20 _ rfl 0 (by decide)).2.2.2.2⟩

/-- C6: every per-bar indicator series has exactly as many entries as the
input series, the i-th entry is the indicator value over the trailing window
ending at bar i, and entries are None exactly where the window lacks
history (for the RSI, None also at later positions is possible, see C2). -/
theorem c6_alignment (hist : List Bar) (ind : IndicatorSet)
    (hok : calculate_indicators hist = Except.ok ind) :
    (ind.sma_20.length = hist.length ∧ ind.sma_50.length = hist.length
      ∧ ind.sma_200.length = hist.length ∧ ind.ema_12.length = hist.length
      ∧ ind.ema_26.length = hist.length ∧ ind.rsi.length = hist.length
      ∧ ind.macd_line.length = hist.length ∧ ind.macd_signal.length = hist.length
      ∧ ind.macd_histogram.length = hist.length ∧ ind.bb_upper.length = hist.length
      ∧ ind.bb_middle.length = hist.length ∧ ind.bb_lower.length = hist.length)
    ∧ (∀ i, i < hist.length →
        ind.sma_20.getD i none = (smaAt 20 (closes hist) i).map round2
        ∧ ind.sma_50.getD i none = (smaAt 50 (closes hist) i).map round2
        ∧ ind.sma_200.getD i none = (smaAt 200 (closes hist) i).map round2
        ∧ ind.ema_12.getD i none = some (round2 (ewmRecAt (2/13) (closes hist) i))
        ∧ ind.ema_26.getD i none = some (round2 (ewmRecAt (2/27) (closes hist) i))
        ∧ ind.rsi.getD i none = (rsiRawAt (closes hist) i).map round2
        ∧ ind.macd_line.getD i none = some (round2 (macdRawAt (closes hist) i))
        ∧ ind.macd_signal.getD i none = some (round2 (signalRawAt (closes hist) i))
        ∧ ind.macd_histogram.getD i none
            = some (round2 (macdRawAt (closes hist) i - signalRawAt (closes hist) i))
        ∧ ind.bb_upper.getD i none = (bbUpperAt (closes hist) i).map round2
        ∧ ind.bb_middle.getD i none = (smaAt 20 (closes hist) i).map round2
        ∧ ind.bb_lower.getD i none = (bbLowerAt (closes hist) i).map round2
        ∧ (ind.sma_20.getD i none = none ↔ i + 1 < 20)
        ∧ (ind.sma_50.getD i none = none ↔ i + 1 < 50)
        ∧ (ind.sma_200.getD i none = none ↔ i + 1 < 200)
        ∧ (ind.bb_upper.getD i none = none ↔ i + 1 < 20)
        ∧ (ind.bb_lower.getD i none = none ↔ i + 1 < 20)
        ∧ (i + 1 < 14 → ind.rsi.getD i none = none)) := by
  obtain ⟨h20, rfl⟩ := calculate_indicators_ok hok
  constructor
  · refine ⟨?_, ?_, ?_, ?_, ?_, ?_, ?_, ?_, ?_, ?_, ?_, ?_⟩ <;>
      simp [indicatorsOf_sma_20, indicatorsOf_sma_50, indicatorsOf_sma_200,
        indicatorsOf_ema_12, indicatorsOf_ema_26, indicatorsOf_rsi,
        indicatorsOf_macd_line, indicatorsOf_macd_signal, indicatorsOf_macd_histogram,
        indicatorsOf_bb_upper, indicatorsOf_bb_middle, indicatorsOf_bb_lower,
        safe_round_length]
  · intro i hi
    refine ⟨?_, ?_, ?_, ?_, ?_, ?_, ?_, ?_, ?_, ?_, ?_, ?_, ?_, ?_, ?_, ?_, ?_, ?_⟩
    · rw [indicatorsOf_sma_20]; exact safe_round_map_getD _ hi
    · rw [indicatorsOf_sma_50]; exact safe_round_map_getD _ hi
    · rw [indicatorsOf_sma_200]; exact safe_round_map_getD _ hi
    · rw [indicatorsOf_ema_12]; simpa using safe_round_map_getD _ hi
    · rw [indicatorsOf_ema_26]; simpa using safe_round_map_getD _ hi
    · rw [indicatorsOf_rsi]; exact safe_round_map_getD _ hi
    · rw [indicatorsOf_macd_line]; simpa using safe_round_map_getD _ hi
    · rw [indicatorsOf_macd_signal]; simpa using safe_round_map_getD _ hi
    · rw [indicatorsOf_macd_histogram]; simpa using safe_round_map_getD _ hi
    · rw [indicatorsOf_bb_upper]; exact safe_round_map_getD _ hi
    · rw [indicatorsOf_bb_middle]; exact safe_round_map_getD _ hi
    · rw [indicatorsOf_bb_lower]; exact safe_round_map_getD _ hi
    · rw [indicatorsOf_sma_20, safe_round_map_getD _ hi, Option.map_eq_none',
        smaAt_eq_none_iff]
    · rw [indicatorsOf_sma_50, safe_round_map_getD _ hi, Option.map_eq_none',
        smaAt_eq_none_iff]
    · rw [indicatorsOf_sma_200, safe_round_map_getD _ hi, Option.map_eq_none',
        smaAt_eq_none_iff]
    · rw [indicatorsOf_bb_upper, safe_round_map_getD _ hi, Option.map_eq_none',
        bbUpperAt_eq_none_iff]
    · rw [indicatorsOf_bb_lower, safe_round_map_getD _ hi, Option.map_eq_none',
        bbLowerAt_eq_none_iff]
    · intro h14
      rw [indicatorsOf_rsi, safe_round_map_getD _ hi, rsiRawAt_of_lt h14]
      rfl

/-- Witness for C6 at a 20-bar series. -/
theorem c6_alignment_witness :
    (indicatorsOf (demoUp 20)).sma_20.length = (demoUp 20).length
    ∧ (indicatorsOf (demoUp 20)).rsi.length = (demoUp 20).length
    ∧ (indicatorsOf (demoUp 20)).sma_20.getD 19 none
        = (smaAt 20 (closes (demoUp 20)) 19).map round2 :=
  ⟨(c6_alignment (demoUp 20) _ rfl).1.1,
   (c6_alignment (demoUp 20) _ rfl).1.2.2.2.2.2.1,
   ((c6_alignment (demoUp 20) _ rfl).2 19 (by decide)).1⟩

/-! ### Helper lemmas: dedup dictionary semantics -/

theorem dedupInsert_of_not_mem {acc : List Pattern} {p : Pattern}
    (h : p.type ∉ acc.map Pattern.type) : dedupInsert acc p = acc ++ [p] := by
  induction acc with
  | nil => rfl
  | cons q rest ih =>
    simp only [List.map_cons, List.mem_cons] at h
    push_neg at h
    unfold dedupInsert
    rw [if_neg (fun hq => h.1 hq.symm), ih h.2]
    rfl

theorem dedupInsert_of_mem {acc : List Pattern} {p : Pattern}
    (h : p.type ∈ acc.map Pattern.type) :
    ∃ l1 a l2, acc = l1 ++ a :: l2 ∧ a.type = p.type ∧ (∀ q ∈ l1, q.type ≠ p.type)
      ∧ dedupInsert acc p = l1 ++ (if a.confidence < p.confidence then p else a) :: l2 := by
  induction acc with
  | nil => simp at h
  | cons q rest ih =>
    by_cases hq : q.type = p.type
    · refine ⟨[], q, rest, rfl, hq, by simp, ?_⟩
      unfold dedupInsert
      rw [if_pos hq]
      split_ifs <;> rfl
    · have h' : p.type ∈ rest.map Pattern.type := by
        simp only [List.map_cons, List.mem_cons] at h
        rcases h with h | h
        · exact absurd h.symm hq
        · exact h
      obtain ⟨l1, a, l2, he, ha, hl1, hd⟩ := ih h'
      refine ⟨q :: l1, a, l2, by rw [List.cons_append, he], ha, ?_, ?_⟩
      · intro x hx
        rcases List.mem_cons.mp hx with rfl | hx
        · exact hq
        · exact hl1 x hx
      · unfold dedupInsert
        rw [if_neg hq, hd]
        rfl

theorem dedupGood_step {done acc : List Pattern} {r : Pattern} (hg : dedupGood done acc) :
    dedupGood (done ++ [r]) (dedupInsert acc r) := by
  obtain ⟨hnd, hcov, hch⟩ := hg
  by_cases hmem : r.type ∈ acc.map Pattern.type
  · obtain ⟨l1, a, l2, rfl, ha, hl1, hd⟩ := dedupInsert_of_mem hmem
    rw [hd]
    have hmap : (l1 ++ a :: l2).map Pattern.type
        = l1.map Pattern.type ++ a.type :: l2.map Pattern.type := by simp
    rw [hmap] at hnd
    have hnotl : a.type ∉ l1.map Pattern.type ++ l2.map Pattern.type :=
      (List.nodup_cons.mp (List.nodup_middle.mp hnd)).1
    have hamem : a ∈ l1 ++ a :: l2 := List.mem_append_right _ (List.mem_cons_self _ _)
    have hachamp := hch a hamem
    have hct : (if a.confidence < r.confidence then r else a).type = a.type := by
      split_ifs <;> simp [ha]
    constructor
    · have : (l1 ++ (if a.confidence < r.confidence then r else a) :: l2).map Pattern.type
          = l1.map Pattern.type ++ a.type :: l2.map Pattern.type := by simp [hct]
      rw [this]
      exact hnd
    constructor
    · intro q hq
      rcases List.mem_append.mp hq with hq | hq
      · obtain ⟨x, hx, hxt⟩ := hcov q hq
        rcases List.mem_append.mp hx with hx | hx
        · exact ⟨x, List.mem_append_left _ hx, hxt⟩
        · rcases List.mem_cons.mp hx with rfl | hx
          · exact ⟨_, List.mem_append_right _ (List.mem_cons_self _ _), by rw [hct]; exact hxt⟩
          · exact ⟨x, List.mem_append_right _ (List.mem_cons.mpr (Or.inr hx)), hxt⟩
      · rcases List.mem_singleton.mp hq with rfl
        exact ⟨_, List.mem_append_right _ (List.mem_cons_self _ _), by rw [hct, ha]⟩
    · intro p hp
      rcases List.mem_append.mp hp with hp | hp
      · -- p in l1: its type differs from a.type = r.type
        have hpt : p.type ≠ a.type := by
          intro hpe
          exact hnotl (List.mem_append_left _ (hpe ▸ List.mem_map_of_mem Pattern.type hp))
        have hold := hch p (List.mem_append_left _ hp)
        constructor
        · intro q hq hqt
          rcases List.mem_append.mp hq with hq | hq
          · exact hold.1 q hq hqt
          · rcases List.mem_singleton.mp hq with rfl
            exact absurd (hqt.symm.trans ha.symm) hpt
        · obtain ⟨d1, d2, hde, hd1⟩ := hold.2
          exact ⟨d1, d2 ++ [r], by rw [hde]; simp, hd1⟩
      · rcases List.mem_cons.mp hp with rfl | hp
        · -- p is the replacement
          by_cases hcf : a.confidence < r.confidence
          · rw [if_pos hcf]
            constructor
            · intro q hq hqt
              rcases List.mem_append.mp hq with hq | hq
              · have := hachamp.1 q hq (by rw [ha]; exact hqt)
                omega
              · rcases List.mem_singleton.mp hq with rfl
                exact le_refl _
            · refine ⟨done, [], rfl, ?_⟩
              intro q hq hqt
              have := hachamp.1 q hq (by rw [ha]; exact hqt)
              omega
          · rw [if_neg hcf]
            constructor
            · intro q hq hqt
              rcases List.mem_append.mp hq with hq | hq
              · exact hachamp.1 q hq hqt
              · rcases List.mem_singleton.mp hq with rfl
                rw [ha] at hqt
                omega
            · obtain ⟨d1, d2, hde, hd1⟩ := hachamp.2
              exact ⟨d1, d2 ++ [r], by rw [hde]; simp, hd1⟩
        · -- p in l2
          have hpt : p.type ≠ a.type := by
            intro hpe
            exact hnotl (List.mem_append_right _ (hpe ▸ List.mem_map_of_mem Pattern.type hp))
          have hold := hch p (List.mem_append_right _ (List.mem_cons.mpr (Or.inr hp)))
          constructor
          · intro q hq hqt
            rcases List.mem_append.mp hq with hq | hq
            · exact hold.1 q hq hqt
            · rcases List.mem_singleton.mp hq with rfl
              exact absurd (hqt.symm.trans ha.symm) hpt
          · obtain ⟨d1, d2, hde, hd1⟩ := hold.2
            exact ⟨d1, d2 ++ [r], by rw [hde]; simp, hd1⟩
  · rw [dedupInsert_of_not_mem hmem]
    constructor
    · rw [List.map_append]
      refine List.Nodup.append hnd (by simp) ?_
      intro t ht ht'
      rcases List.mem_singleton.mp (by simpa using ht') with rfl
      exact hmem ht
    constructor
    · intro q hq
      rcases List.mem_append.mp hq with hq | hq
      · obtain ⟨x, hx, hxt⟩ := hcov q hq
        exact ⟨x, List.mem_append_left _ hx, hxt⟩
      · rcases List.mem_singleton.mp hq with rfl
        exact ⟨q, List.mem_append_right _ (List.mem_singleton.mpr rfl), rfl⟩
    · intro p hp
      rcases List.mem_append.mp hp with hp | hp
      · have hold := hch p hp
        have hpt : r.type ≠ p.type := by
          intro hpe
          exact hmem (hpe ▸ List.mem_map_of_mem Pattern.type hp)
        constructor
        · intro q hq hqt
          rcases List.mem_append.mp hq with hq | hq
          · exact hold.1 q hq hqt
          · rcases List.mem_singleton.mp hq with rfl
            exact absurd hqt hpt
        · obtain ⟨d1, d2, hde, hd1⟩ := hold.2
          exact ⟨d1, d2 ++ [r], by rw [hde]; simp, hd1⟩
      · rcases List.mem_singleton.mp hp with rfl
        constructor
        · intro q hq hqt
          rcases List.mem_append.mp hq with hq | hq
          · obtain ⟨x, hx, hxt⟩ := hcov q hq
            exact absurd (hxt.trans hqt ▸ List.mem_map_of_mem Pattern.type hx) hmem
          · rcases List.mem_singleton.mp hq with rfl
            exact le_refl _
        · refine ⟨done, [], rfl, ?_⟩
          intro q hq hqt
          obtain ⟨x, hx, hxt⟩ := hcov q hq
          exact absurd (hxt.trans hqt ▸ List.mem_map_of_mem Pattern.type hx) hmem

theorem dedupGood_foldl : ∀ (rest done acc : List Pattern), dedupGood done acc →
    dedupGood (done ++ rest) (rest.foldl dedupInsert acc)
  | [], done, acc, hg => by simpa using hg
  | r :: rest, done, acc, hg => by
    have h2 := dedupGood_foldl rest (done ++ [r]) (dedupInsert acc r) (dedupGood_step hg)
    simpa [List.append_assoc] using h2

theorem dedupPatterns_good (ps : List Pattern) : dedupGood ps (dedupPatterns ps) := by
  have h := dedupGood_foldl ps [] [] ⟨by simp, by simp, by simp⟩
  simpa [dedupPatterns] using h

theorem mem_of_mem_dedup {ps : List Pattern} {p : Pattern} (h : p ∈ dedupPatterns ps) :
    p ∈ ps := by
  obtain ⟨-, -, hch⟩ := dedupPatterns_good ps
  obtain ⟨l1, l2, he, -⟩ := (hch p h).2
  rw [he]
  exact List.mem_append_right _ (List.mem_cons_self _ _)

/-! ### Helper lemmas: candlestick pattern shapes -/

theorem mem_dojiGroupAt {hist : List Bar} {i : ℕ} {p : Pattern} (h : p ∈ dojiGroupAt hist i) :
    p = dojiPat (dateAt hist i) ∨ p = hammerPat (dateAt hist i)
      ∨ p = invHammerPat (dateAt hist i) := by
  simp only [dojiGroupAt] at h
  split_ifs at h <;> simp_all

theorem mem_bullEngulfAt {hist : List Bar} {i : ℕ} {p : Pattern}
    (h : p ∈ bullEngulfAt hist i) : p = bullEngulfPat (dateAt hist i) := by
  simp only [bullEngulfAt] at h
  split_ifs at h <;> simp_all

theorem mem_bearEngulfAt {hist : List Bar} {i : ℕ} {p : Pattern}
    (h : p ∈ bearEngulfAt hist i) : p = bearEngulfPat (dateAt hist i) := by
  simp only [bearEngulfAt] at h
  split_ifs at h <;> simp_all

theorem mem_morningStarAt {hist : List Bar} {i : ℕ} {p : Pattern}
    (h : p ∈ morningStarAt hist i) : p = morningPat (dateAt hist i) := by
  simp only [morningStarAt] at h
  split_ifs at h <;> simp_all

theorem mem_eveningStarAt {hist : List Bar} {i : ℕ} {p : Pattern}
    (h : p ∈ eveningStarAt hist i) : p = eveningPat (dateAt hist i) := by
  simp only [eveningStarAt] at h
  split_ifs at h <;> simp_all

theorem mem_soldiersAt {hist : List Bar} {i : ℕ} {p : Pattern}
    (h : p ∈ soldiersAt hist i) : p = soldiersPat (dateAt hist i) := by
  simp only [soldiersAt] at h
  split_ifs at h <;> simp_all

theorem mem_crowsAt {hist : List Bar} {i : ℕ} {p : Pattern}
    (h : p ∈ crowsAt hist i) : p = crowsPat (dateAt hist i) := by
  simp only [crowsAt] at h
  split_ifs at h <;> simp_all

theorem mem_patternsAt {hist : List Bar} {i : ℕ} {p : Pattern} (h : p ∈ patternsAt hist i) :
    p = dojiPat (dateAt hist i) ∨ p = hammerPat (dateAt hist i)
    ∨ p = invHammerPat (dateAt hist i) ∨ p = bullEngulfPat (dateAt hist i)
    ∨ p = bearEngulfPat (dateAt hist i) ∨ p = morningPat (dateAt hist i)
    ∨ p = eveningPat (dateAt hist i) ∨ p = soldiersPat (dateAt hist i)
    ∨ p = crowsPat (dateAt hist i) := by
  unfold patternsAt at h
  split_ifs at h
  · exact absurd h (by simp)
  · simp only [List.mem_append] at h
    rcases h with ((((((h | h) | h) | h) | h) | h) | h)
    · rcases mem_dojiGroupAt h with h | h | h <;> tauto
    · have := mem_bullEngulfAt h; tauto
    · have := mem_bearEngulfAt h; tauto
    · have := mem_morningStarAt h; tauto
    · have := mem_eveningStarAt h; tauto
    · have := mem_soldiersAt h; tauto
    · have := mem_crowsAt h; tauto

theorem patternsAt_date {hist : List Bar} {i : ℕ} {p : Pattern} (h : p ∈ patternsAt hist i) :
    p.date = dateAt hist i := by
  rcases mem_patternsAt h with rfl | rfl | rfl | rfl | rfl | rfl | rfl | rfl | rfl <;> rfl

theorem patternsAt_shape {hist : List Bar} {i : ℕ} {p : Pattern} (h : p ∈ patternsAt hist i) :
    p.type ∈ candleTypes ∧ p.category = some ("candlestick")
      ∧ p.signal ∈ [("bullish"), ("bearish"), ("neutral")]
      ∧ 55 ≤ p.confidence ∧ p.confidence ≤ 78 := by
  rcases mem_patternsAt h with rfl | rfl | rfl | rfl | rfl | rfl | rfl | rfl | rfl <;>
    simp [dojiPat, hammerPat, invHammerPat, bullEngulfPat, bearEngulfPat, morningPat,
      eveningPat, soldiersPat, crowsPat, candleTypes]

theorem mem_candlestick {hist : List Bar} {p : Pattern}
    (h : p ∈ detect_candlestick_patterns hist) :
    ∃ i ∈ scanIndices hist.length, p ∈ patternsAt hist i := by
  unfold detect_candlestick_patterns at h
  split_ifs at h
  · exact absurd h (by simp)
  · have h' := mem_of_mem_dedup h
    unfold rawCandlestick at h'
    rw [List.mem_flatten] at h'
    obtain ⟨s, hs, hps⟩ := h'
    rw [List.mem_map] at hs
    obtain ⟨i, hi, rfl⟩ := hs
    exact ⟨i, hi, hps⟩

theorem scanIndices_ge {n i : ℕ} (h : i ∈ scanIndices n) : 3 ≤ i := by
  unfold scanIndices at h
  rw [List.mem_range'_1] at h
  exact le_trans (le_max_left 3 (n - 15)) h.1

/-- C5: the candlestick detector emits at most one pattern per type; each
kept pattern has maximal confidence among the same-type raw detections of
the scan, and on equal confidence the first detection found is the one
kept. -/
theorem c5_dedup_policy (hist : List Bar) :
    ((detect_candlestick_patterns hist).map Pattern.type).Nodup
    ∧ ∀ p ∈ detect_candlestick_patterns hist,
        (∀ q ∈ rawCandlestick hist, q.type = p.type → q.confidence ≤ p.confidence)
        ∧ ∃ l1 l2, rawCandlestick hist = l1 ++ p :: l2
            ∧ ∀ q ∈ l1, q.type = p.type → q.confidence < p.confidence := by
  unfold detect_candlestick_patterns
  split_ifs with h5
  · simp
  · obtain ⟨hnd, -, hch⟩ := dedupPatterns_good (rawCandlestick hist)
    exact ⟨hnd, fun p hp => ⟨(hch p hp).1, (hch p hp).2⟩⟩

/-- Witness for C5 on a 5-bar series with a Doji at both scanned anchors:
the first one, dated at bar 3, is kept. -/
theorem c5_dedup_policy_witness :
    ((detect_candlestick_patterns dojiBars).map Pattern.type).Nodup
    ∧ (∀ q ∈ rawCandlestick dojiBars,
        q.type = (dojiPat ("3")).type → q.confidence ≤ (dojiPat ("3")).confidence) :=
  ⟨(c5_dedup_policy dojiBars).1,
   ((c5_dedup_policy dojiBars).2 (dojiPat ("3")) (by decide)).1⟩

/-- C10: the candlestick scan never anchors a pattern at bars 0, 1 or 2:
every scanned index is at least 3, every emitted pattern is dated at a
scanned index, and for a 5-bar series exactly the last two indices 3 and 4
are scanned. -/
theorem c10_scan_window (hist : List Bar) :
    (∀ i ∈ scanIndices hist.length, 3 ≤ i)
    ∧ (∀ p ∈ detect_candlestick_patterns hist,
        ∃ i ∈ scanIndices hist.length, p.date = dateAt hist i)
    ∧ scanIndices 5 = [3, 4] := by
  refine ⟨fun i hi => scanIndices_ge hi, fun p hp => ?_, by decide⟩
  obtain ⟨i, hi, hpi⟩ := mem_candlestick hp
  exact ⟨i, hi, patternsAt_date hpi⟩

/-- Witness for C10 on the 5-bar doji series. -/
theorem c10_scan_window_witness :
    3 ≤ 3 ∧ ∃ i ∈ scanIndices dojiBars.length, (dojiPat ("3")).date = dateAt dojiBars i :=
  ⟨(c10_scan_window dojiBars).1 3 (by decide),
   (c10_scan_window dojiBars).2.1 (dojiPat ("3")) (by decide)⟩

/-! ### Helper lemmas: composite branches -/

theorem mem_goldenDeathList {d : IndicatorSet} {date : String} {p : Pattern}
    (h : p ∈ goldenDeathList d date) :
    p = goldenPat date
    ∨ (p = deathPat date ∧ ∃ a1 b1, negIdx d.sma_50 1 = some a1
        ∧ negIdx d.sma_200 1 = some b1 ∧ a1 < b1) := by
  unfold goldenDeathList at h
  split_ifs at h
  · split at h
    · rename_i a1 b1 a2 b2 e1 e2 e3 e4
      split_ifs at h with hg hd
      · left
        simpa using h
      · right
        refine ⟨by simpa using h, a1, b1, ?_, ?_, hd.1⟩ <;> assumption
      · simp at h
    · simp at h
  · simp at h

theorem mem_trendList {d : IndicatorSet} {price : ℚ} {date : String} {p : Pattern}
    (h : p ∈ trendList d price date) :
    p = strongUpPat date ∨ p = strongDownPat date := by
  unfold trendList at h
  split at h
  · split_ifs at h <;> simp_all
  · simp at h

theorem mem_rsiSignalList {d : IndicatorSet} {date : String} {p : Pattern}
    (h : p ∈ rsiSignalList d date) : p = rsiObPat date ∨ p = rsiOsPat date := by
  unfold rsiSignalList at h
  split_ifs at h <;> simp_all

theorem mem_macdCrossList {d : IndicatorSet} {date : String} {p : Pattern}
    (h : p ∈ macdCrossList d date) : p = macdBullPat date ∨ p = macdBearPat date := by
  unfold macdCrossList at h
  split_ifs at h
  · split at h
    · split_ifs at h <;> simp_all
    · simp at h
  · simp at h

theorem mem_bbTouchList {d : IndicatorSet} {price : ℚ} {date : String} {p : Pattern}
    (h : p ∈ bbTouchList d price date) : p = bbUpPat date ∨ p = bbLoPat date := by
  unfold bbTouchList at h
  split at h
  · split_ifs at h <;> simp_all
  · simp at h

theorem mem_doubleList {cs : List ℚ} {date : String} {p : Pattern}
    (h : p ∈ doubleList cs date) : p = doubleTopPat date ∨ p = doubleBottomPat date := by
  unfold doubleList at h
  split_ifs at h <;> simp_all
  tauto

theorem mem_volumeList {hist : List Bar} {date : String} {p : Pattern}
    (h : p ∈ volumeList hist date) : p = volumeSpikePat date := by
  unfold volumeList at h
  split_ifs at h <;> simp_all

theorem mem_suppResList {d : IndicatorSet} {price : ℚ} {date : String} {p : Pattern}
    (h : p ∈ suppResList d price date) :
    (p = nearSupportPat date ∧ d.support ≠ 0 ∧ d.resistance ≠ 0
      ∧ price < d.support * (102/100))
    ∨ (p = nearResistancePat date ∧ d.support ≠ 0 ∧ d.resistance ≠ 0
      ∧ d.resistance * (98/100) < price) := by
  unfold suppResList at h
  split_ifs at h <;> simp_all

theorem nearSupport_mem_suppResList {d : IndicatorSet} {price : ℚ} {date : String}
    (h1 : d.support ≠ 0) (h2 : d.resistance ≠ 0) (h3 : price < d.support * (102/100)) :
    nearSupportPat date ∈ suppResList d price date := by
  unfold suppResList
  rw [if_pos ⟨h1, h2⟩, if_pos h3]
  exact List.mem_append_left _ (List.mem_singleton.mpr rfl)

theorem nearResistance_mem_suppResList {d : IndicatorSet} {price : ℚ} {date : String}
    (h1 : d.support ≠ 0) (h2 : d.resistance ≠ 0) (h3 : d.resistance * (98/100) < price) :
    nearResistancePat date ∈ suppResList d price date := by
  unfold suppResList
  rw [if_pos ⟨h1, h2⟩]
  refine List.mem_append_right _ ?_
  rw [if_pos h3]
  exact List.mem_singleton.mpr rfl

theorem mem_detect_patterns {hist : List Bar} {d : IndicatorSet} {p : Pattern}
    (h : p ∈ detect_patterns hist (Except.ok d)) :
    p ∈ detect_candlestick_patterns hist
    ∨ p ∈ goldenDeathList d (lastDate hist)
    ∨ p ∈ trendList d (lastClose hist) (lastDate hist)
    ∨ p ∈ rsiSignalList d (lastDate hist)
    ∨ p ∈ macdCrossList d (lastDate hist)
    ∨ p ∈ bbTouchList d (lastClose hist) (lastDate hist)
    ∨ p ∈ doubleList (closes hist) (lastDate hist)
    ∨ p ∈ volumeList hist (lastDate hist)
    ∨ p ∈ suppResList d (lastClose hist) (lastDate hist) := by
  simp only [detect_patterns] at h
  split_ifs at h
  · simp at h
  · simp only [List.mem_append] at h
    tauto

theorem suppRes_sub_detect {hist : List Bar} {d : IndicatorSet} (hn : ¬ hist.length = 0)
    {p : Pattern} (h : p ∈ suppResList d (lastClose hist) (lastDate hist)) :
    p ∈ detect_patterns hist (Except.ok d) := by
  simp only [detect_patterns]
  rw [if_neg hn]
  simp only [List.mem_append]
  tauto

/-- Everything `detect_patterns` can emit, with the conditions attached to
the Death Cross and support/resistance proximity patterns. -/
theorem detect_patterns_cases {hist : List Bar} {d : IndicatorSet} {p : Pattern}
    (h : p ∈ detect_patterns hist (Except.ok d)) :
    (p.type ∈ candleTypes ∧ p.category = some ("candlestick")
      ∧ p.signal ∈ [("bullish"), ("bearish"), ("neutral")]
      ∧ 55 ≤ p.confidence ∧ p.confidence ≤ 78)
    ∨ p = goldenPat (lastDate hist)
    ∨ (p = deathPat (lastDate hist) ∧ ∃ a1 b1, negIdx d.sma_50 1 = some a1
        ∧ negIdx d.sma_200 1 = some b1 ∧ a1 < b1)
    ∨ p = strongUpPat (lastDate hist) ∨ p = strongDownPat (lastDate hist)
    ∨ p = rsiObPat (lastDate hist) ∨ p = rsiOsPat (lastDate hist)
    ∨ p = macdBullPat (lastDate hist) ∨ p = macdBearPat (lastDate hist)
    ∨ p = bbUpPat (lastDate hist) ∨ p = bbLoPat (lastDate hist)
    ∨ p = doubleTopPat (lastDate hist) ∨ p = doubleBottomPat (lastDate hist)
    ∨ p = volumeSpikePat (lastDate hist)
    ∨ (p = nearSupportPat (lastDate hist) ∧ d.support ≠ 0 ∧ d.resistance ≠ 0
        ∧ lastClose hist < d.support * (102/100))
    ∨ (p = nearResistancePat (lastDate hist) ∧ d.support ≠ 0 ∧ d.resistance ≠ 0
        ∧ d.resistance * (98/100) < lastClose hist) := by
  rcases mem_detect_patterns h with hb | hb | hb | hb | hb | hb | hb | hb | hb
  · obtain ⟨i, -, hpi⟩ := mem_candlestick hb
    exact Or.inl (patternsAt_shape hpi)
  · rcases mem_goldenDeathList hb with hb | ⟨hb, a1, b1, e1, e2, hlt⟩
    · tauto
    · exact Or.inr (Or.inr (Or.inl ⟨hb, a1, b1, e1, e2, hlt⟩))
  · rcases mem_trendList hb with hb | hb <;> tauto
  · rcases mem_rsiSignalList hb with hb | hb <;> tauto
  · rcases mem_macdCrossList hb with hb | hb <;> tauto
  · rcases mem_bbTouchList hb with hb | hb <;> tauto
  · rcases mem_doubleList hb with hb | hb <;> tauto
  · have := mem_volumeList hb
    tauto
  · rcases mem_suppResList hb with hb | hb <;> tauto

/-- C3 counterexample: a 2-bar series (below the 5-bar candlestick minimum)
together with a well-formed, error-free indicator dictionary encoding a
golden cross makes detect_patterns return a nonempty list, not the empty
list: the under-5-bars guard only silences the candlestick detector. -/
theorem c3_counterexample :
    twoBars.length < 5
    ∧ detect_patterns twoBars (Except.ok craftedInd) = [goldenPat ("b")]
    ∧ detect_patterns twoBars (Except.ok craftedInd) ≠ [] :=
  ⟨by decide, by decide, by decide⟩

/-- C3 (amended): detect_patterns never fails; it returns the empty list on
an error-marked indicator set or an empty series, and on a series of fewer
than 5 bars whenever the indicators are the ones calculate_indicators
computes from that same series (they then carry the insufficient-data
error).  An externally supplied indicator set can still make composite
patterns fire below 5 bars. -/
theorem c3_detect_total (hist : List Bar) (e : String) (ind : Except String IndicatorSet) :
    detect_patterns hist (Except.error e) = []
    ∧ (hist.length = 0 → detect_patterns hist ind = [])
    ∧ (hist.length < 5 → detect_patterns hist (calculate_indicators hist) = []) := by
  refine ⟨rfl, ?_, ?_⟩
  · intro h0
    cases ind with
    | error e2 => rfl
    | ok d =>
      simp only [detect_patterns]
      rw [if_pos h0]
  · intro h5
    rw [calculate_indicators_lt (by omega)]
    rfl

/-- Witness for C3 (amended). -/
theorem c3_detect_total_witness :
    detect_patterns flat20 (Except.error ("x")) = []
    ∧ detect_patterns (demoUp 3) (calculate_indicators (demoUp 3)) = [] :=
  ⟨(c3_detect_total flat20 ("x") (Except.ok craftedInd)).1,
   (c3_detect_total (demoUp 3) ("x") (Except.ok craftedInd)).2.2 (by decide)⟩

/-- C7 counterexample: with closes 100, 101 x18, 102 the support is 100, the
resistance 102 and the current price 102; the price satisfies the claimed
condition support ≤ price ≤ 1.02 * support, yet no Near Support pattern is
emitted, because the source tests the strict inequality price < 1.02 *
support. -/
theorem c7_counterexample :
    calculate_indicators nearBars = Except.ok (indicatorsOf nearBars)
    ∧ (indicatorsOf nearBars).support = 100
    ∧ (indicatorsOf nearBars).resistance = 102
    ∧ lastClose nearBars = 102
    ∧ (indicatorsOf nearBars).support ≤ lastClose nearBars
    ∧ lastClose nearBars ≤ (indicatorsOf nearBars).support * (102/100)
    ∧ ("Near Support") ∉ (detect_patterns nearBars (calculate_indicators nearBars)).map
        Pattern.type :=
  ⟨rfl, by decide, by decide, by decide, by decide, by decide, by decide⟩

/-- C7 (amended): for a nonempty series and an error-free indicator set,
detect_patterns emits Near Support (bullish, confidence 55) exactly when
support and resistance are nonzero and the current price is strictly below
1.02 * support (no lower bound is tested), and Near Resistance (bearish,
confidence 55) exactly when support and resistance are nonzero and the
current price is strictly above 0.98 * resistance (no upper bound is
tested); at the exact boundaries no pattern is emitted. -/
theorem c7_support_resistance (hist : List Bar) (d : IndicatorSet)
    (hn : hist.length ≠ 0) :
    (("Near Support") ∈ (detect_patterns hist (Except.ok d)).map Pattern.type
      ↔ d.support ≠ 0 ∧ d.resistance ≠ 0 ∧ lastClose hist < d.support * (102/100))
    ∧ (("Near Resistance") ∈ (detect_patterns hist (Except.ok d)).map Pattern.type
      ↔ d.support ≠ 0 ∧ d.resistance ≠ 0 ∧ d.resistance * (98/100) < lastClose hist)
    ∧ (∀ p ∈ detect_patterns hist (Except.ok d),
        (p.type = ("Near Support") → p = nearSupportPat (lastDate hist))
        ∧ (p.type = ("Near Resistance") → p = nearResistancePat (lastDate hist))) := by
  refine ⟨⟨?_, ?_⟩, ⟨?_, ?_⟩, ?_⟩
  · intro hm
    rw [List.mem_map] at hm
    obtain ⟨p, hp, hpt⟩ := hm
    rcases detect_patterns_cases hp with hb | hb | ⟨hb, -⟩ | hb | hb | hb | hb | hb | hb
      | hb | hb | hb | hb | hb | ⟨hb, hc⟩ | ⟨hb, hc⟩ <;>
      simp_all [goldenPat, deathPat, strongUpPat, strongDownPat, rsiObPat, rsiOsPat,
        macdBullPat, macdBearPat, bbUpPat, bbLoPat, doubleTopPat, doubleBottomPat,
        volumeSpikePat, nearSupportPat, nearResistancePat, candleTypes]
  · intro ⟨h1, h2, h3⟩
    exact List.mem_map.mpr
      ⟨nearSupportPat (lastDate hist),
        suppRes_sub_detect hn (nearSupport_mem_suppResList h1 h2 h3), rfl⟩
  · intro hm
    rw [List.mem_map] at hm
    obtain ⟨p, hp, hpt⟩ := hm
    rcases detect_patterns_cases hp with hb | hb | ⟨hb, -⟩ | hb | hb | hb | hb | hb | hb
      | hb | hb | hb | hb | hb | ⟨hb, hc⟩ | ⟨hb, hc⟩ <;>
      simp_all [goldenPat, deathPat, strongUpPat, strongDownPat, rsiObPat, rsiOsPat,
        macdBullPat, macdBearPat, bbUpPat, bbLoPat, doubleTopPat, doubleBottomPat,
        volumeSpikePat, nearSupportPat, nearResistancePat, candleTypes]
  · intro ⟨h1, h2, h3⟩
    exact List.mem_map.mpr
      ⟨nearResistancePat (lastDate hist),
        suppRes_sub_detect hn (nearResistance_mem_suppResList h1 h2 h3), rfl⟩
  · intro p hp
    constructor <;> intro hpt <;>
      rcases detect_patterns_cases hp with hb | hb | ⟨hb, -⟩ | hb | hb | hb | hb | hb | hb
        | hb | hb | hb | hb | hb | ⟨hb, -⟩ | ⟨hb, -⟩ <;>
      simp_all [goldenPat, deathPat, strongUpPat, strongDownPat, rsiObPat, rsiOsPat,
        macdBullPat, macdBearPat, bbUpPat, bbLoPat, doubleTopPat, doubleBottomPat,
        volumeSpikePat, nearSupportPat, nearResistancePat, candleTypes]

/-- Witness for C7 (amended) on the flat 20-bar series, where support = 100,
resistance = 100 and price = 100: both proximity patterns fire. -/
theorem c7_support_resistance_witness :
    ("Near Support") ∈ (detect_patterns flat20 (Except.ok (indicatorsOf flat20))).map
      Pattern.type :=
  ((c7_support_resistance flat20 (indicatorsOf flat20) (by decide)).1).mpr
    ⟨by decide, by decide, by decide⟩

/-- C9 counterexample: on the flat 20-bar series detect_patterns emits three
composite patterns and none of them carries a category field (modelled as
category = none), while the claim requires category = composite on them. -/
theorem c9_counterexample :
    (detect_patterns flat20 (calculate_indicators flat20)).map Pattern.category
      = [none, none, none]
    ∧ (detect_patterns flat20 (calculate_indicators flat20)).map Pattern.type
      = [("Bollinger Band Upper Touch"), ("Near Support"), ("Near Resistance")] :=
  ⟨by decide, by decide⟩

/-- C9 (amended): every pattern returned by detect_patterns has a type from
the closed candlestick or composite set, a signal among bullish, bearish,
neutral, an integer confidence between 55 and 100 (hence within 0-100), and
a date; candlestick patterns carry the candlestick category, while composite
patterns carry no category field at all (none). -/
theorem c9_category (hist : List Bar) (ind : Except String IndicatorSet) :
    ∀ p ∈ detect_patterns hist ind,
      p.signal ∈ [("bullish"), ("bearish"), ("neutral")]
      ∧ 55 ≤ p.confidence ∧ p.confidence ≤ 100
      ∧ ((p.type ∈ candleTypes ∧ p.category = some ("candlestick"))
        ∨ (p.type ∈ compositeTypes ∧ p.category = none)) := by
  intro p hp
  cases ind with
  | error e => exact absurd hp (by simp [detect_patterns])
  | ok d =>
    rcases detect_patterns_cases hp with hb | hb | ⟨hb, -⟩ | hb | hb | hb | hb | hb | hb
      | hb | hb | hb | hb | hb | ⟨hb, -⟩ | ⟨hb, -⟩
    · obtain ⟨ht, hc, hs, h55, h78⟩ := hb
      exact ⟨hs, h55, by omega, Or.inl ⟨ht, hc⟩⟩
    all_goals
      subst hb
    all_goals
      refine ⟨?_, ?_, ?_, Or.inr ⟨?_, rfl⟩⟩ <;>
        norm_num [goldenPat, deathPat, strongUpPat, strongDownPat, rsiObPat, rsiOsPat,
          macdBullPat, macdBearPat, bbUpPat, bbLoPat, doubleTopPat, doubleBottomPat,
          volumeSpikePat, nearSupportPat, nearResistancePat, compositeTypes]

/-- Witness for C9 (amended) at a composite pattern of the flat series. -/
theorem c9_category_witness :
    (bbUpPat ("19")).signal ∈ [("bullish"), ("bearish"), ("neutral")]
    ∧ 55 ≤ (bbUpPat ("19")).confidence ∧ (bbUpPat ("19")).confidence ≤ 100
    ∧ (((bbUpPat ("19")).type ∈ candleTypes
          ∧ (bbUpPat ("19")).category = some ("candlestick"))
      ∨ ((bbUpPat ("19")).type ∈ compositeTypes ∧ (bbUpPat ("19")).category = none)) :=
  c9_category flat20 (calculate_indicators flat20) (bbUpPat ("19")) (by decide)

/-! ### Helper lemmas: monotone closes and SMA comparison -/

theorem mul_length_le_sum (a : ℚ) (v : List ℚ) (h : ∀ y ∈ v, a ≤ y) :
    a * v.length ≤ v.sum := by
  induction v with
  | nil => simp
  | cons y v ih =>
    have hy : a ≤ y := h y (List.mem_cons_self _ _)
    have h1 := ih (fun z hz => h z (List.mem_cons_of_mem _ hz))
    simp only [List.length_cons, List.sum_cons]
    push_cast
    nlinarith [h1, hy]

theorem sum_mul_le_sum_mul (u v : List ℚ) (h : ∀ x ∈ u, ∀ y ∈ v, x ≤ y) :
    u.sum * v.length ≤ v.sum * u.length := by
  induction u with
  | nil => simp
  | cons x u ih =>
    have h1 := ih (fun z hz => h z (List.mem_cons_of_mem _ hz))
    have h2 := mul_length_le_sum x v (h x (List.mem_cons_self _ _))
    simp only [List.sum_cons, List.length_cons]
    push_cast
    nlinarith [h1, h2]

theorem windowSlice_sublist (cs : List ℚ) (i w : ℕ) : (windowSlice cs i w).Sublist cs := by
  unfold windowSlice
  exact (List.drop_sublist _ _).trans (List.take_sublist _ _)

theorem windowMean_200_le_50 {cs : List ℚ} (hs : List.Sorted (· ≤ ·) cs) {i : ℕ}
    (h199 : 199 ≤ i) (hi : i < cs.length) :
    windowMean 200 cs i ≤ windowMean 50 cs i := by
  have hw : windowSlice cs i 50 = (windowSlice cs i 200).drop 150 := by
    unfold windowSlice
    rw [List.drop_drop]
    congr 1
    omega
  have h200len : (windowSlice cs i 200).length = 200 := by
    unfold windowSlice
    rw [List.length_drop, List.length_take]
    omega
  have hmidlen : ((windowSlice cs i 200).take 150).length = 150 := by
    rw [List.length_take, h200len]
    exact min_eq_left (by norm_num)
  have h50len : (windowSlice cs i 50).length = 50 := by
    rw [hw, List.length_drop, h200len]
  have hpw : List.Pairwise (· ≤ ·) (windowSlice cs i 200) :=
    List.Pairwise.sublist (windowSlice_sublist cs i 200) hs
  have hcross : ∀ x ∈ (windowSlice cs i 200).take 150,
      ∀ y ∈ (windowSlice cs i 200).drop 150, x ≤ y := by
    have := (List.pairwise_append.mp
      ((List.take_append_drop 150 (windowSlice cs i 200)).symm ▸ hpw)).2.2
    exact this
  have hsum : (windowSlice cs i 200).sum
      = ((windowSlice cs i 200).take 150).sum + ((windowSlice cs i 200).drop 150).sum := by
    conv_lhs => rw [← List.take_append_drop 150 (windowSlice cs i 200)]
    rw [List.sum_append]
  have key := sum_mul_le_sum_mul _ _ hcross
  rw [hmidlen] at key
  rw [← hw] at key hsum
  rw [h50len] at key
  unfold windowMean
  rw [div_le_div_iff (by norm_num) (by norm_num)]
  push_cast at key ⊢
  nlinarith [key, hsum]

theorem demoUp_closes (n : ℕ) :
    closes (demoUp n) = (List.range n).map (fun (i : ℕ) => 100 + (i : ℚ)) := by
  simp [closes, demoUp, List.map_map]

theorem demoUp_length (n : ℕ) : (demoUp n).length = n := by
  rw [demoUp, List.length_map, List.length_range]

theorem demoUp_sorted (n : ℕ) : List.Sorted (· ≤ ·) (closes (demoUp n)) := by
  rw [demoUp_closes]
  unfold List.Sorted
  rw [List.pairwise_map]
  refine (List.pairwise_lt_range n).imp ?_
  intro a b hab
  have hc : (a : ℚ) ≤ (b : ℚ) := by exact_mod_cast le_of_lt hab
  linarith

/-- C8: on a series of at least 200 bars with monotonically increasing
closes, the rounded SMA50 is at least the rounded SMA200 at every position
with a full 200-bar window, and detect_patterns never emits a Death Cross
pattern. -/
theorem c8_no_death_cross (hist : List Bar) (h200 : 200 ≤ hist.length)
    (hmono : List.Sorted (· ≤ ·) (closes hist)) :
    (∀ i, 199 ≤ i → i < hist.length →
      ∃ a b, (indicatorsOf hist).sma_50.getD i none = some a
        ∧ (indicatorsOf hist).sma_200.getD i none = some b ∧ b ≤ a)
    ∧ ("Death Cross") ∉ (detect_patterns hist (calculate_indicators hist)).map
        Pattern.type := by
  have hlen : (closes hist).length = hist.length := by simp [closes]
  have hmean : ∀ i, 199 ≤ i → i < hist.length →
      (indicatorsOf hist).sma_50.getD i none = some (round2 (windowMean 50 (closes hist) i))
      ∧ (indicatorsOf hist).sma_200.getD i none
          = some (round2 (windowMean 200 (closes hist) i))
      ∧ round2 (windowMean 200 (closes hist) i) ≤ round2 (windowMean 50 (closes hist) i) := by
    intro i h199 hi
    refine ⟨?_, ?_, round2_mono (windowMean_200_le_50 hmono h199 (by omega))⟩
    · rw [indicatorsOf_sma_50, safe_round_map_getD _ hi]
      unfold smaAt
      rw [if_neg (by omega)]
      rfl
    · rw [indicatorsOf_sma_200, safe_round_map_getD _ hi]
      unfold smaAt
      rw [if_neg (by omega)]
      rfl
  constructor
  · intro i h199 hi
    obtain ⟨e1, e2, hle⟩ := hmean i h199 hi
    exact ⟨_, _, e1, e2, hle⟩
  · rw [calculate_indicators_ge (by omega)]
    intro hm
    rw [List.mem_map] at hm
    obtain ⟨p, hp, hpt⟩ := hm
    rcases detect_patterns_cases hp with hb | hb | ⟨hb, a1, b1, e1, e2, hlt⟩ | hb | hb | hb
      | hb | hb | hb | hb | hb | hb | hb | hb | ⟨hb, -⟩ | ⟨hb, -⟩
    · have hct := hb.1
      rw [hpt] at hct
      simp [candleTypes] at hct
    · subst hb
      simp [goldenPat] at hpt
    · have hlen50 : (indicatorsOf hist).sma_50.length = hist.length := by
        rw [indicatorsOf_sma_50, safe_round_length, List.length_map, List.length_range]
      have hlen200 : (indicatorsOf hist).sma_200.length = hist.length := by
        rw [indicatorsOf_sma_200, safe_round_length, List.length_map, List.length_range]
      obtain ⟨he1, he2, hle⟩ := hmean (hist.length - 1) (by omega) (by omega)
      unfold negIdx at e1 e2
      rw [hlen50, he1] at e1
      rw [hlen200, he2] at e2
      have ha : a1 = round2 (windowMean 50 (closes hist) (hist.length - 1)) :=
        ((Option.some.injEq _ _).mp e1).symm
      have hbv : b1 = round2 (windowMean 200 (closes hist) (hist.length - 1)) :=
        ((Option.some.injEq _ _).mp e2).symm
      rw [ha, hbv] at hlt
      exact absurd hlt (not_lt.mpr hle)
    all_goals
      subst hb
    all_goals
      simp [strongUpPat, strongDownPat, rsiObPat, rsiOsPat, macdBullPat, macdBearPat,
        bbUpPat, bbLoPat, doubleTopPat, doubleBottomPat, volumeSpikePat, nearSupportPat,
        nearResistancePat] at hpt

/-- Witness for C8: a 200-bar strictly increasing series never shows a Death
Cross. -/
theorem c8_no_death_cross_witness :
    ("Death Cross") ∉ (detect_patterns (demoUp 200)
      (calculate_indicators (demoUp 200))).map Pattern.type :=
  (c8_no_death_cross (demoUp 200) (by rw [demoUp_length]) (demoUp_sorted 200)).2
